import Mathlib

/-!
Verification development for the Prism plugin runtime.

This file gives a shallow embedding, in Lean 4, of the core plugin-runtime
code of the repository:

* the audit-hook enforcement engine (app/core/audit_sandbox.py together with
  the permission definitions of app/core/permission_engine.py and the
  permission manager of app/plugins/interface.py);
* the dependency resolver and the plugin loader (app/plugins/loader.py);
* the chain runner (app/core/chain_runner.py) and its request context
  (app/plugins/interface.py).

Python dictionaries are modelled as association lists with unique keys
(assignment replaces in place, keeping the key position, exactly like a
dict); Python sets of strings are modelled as lists used only through
membership; filesystem and import effects of the loader are abstracted into
an environment record of oracles, one per effectful call of the source.
Paths are plain strings with "/" as separator; os.path.abspath is modelled
as prefixing the working directory onto relative paths (the source resolves
against os.getcwd(), which is always absolute).
-/

/-! ### String primitives

The Lean core string functions startsWith, contains, toLower, replace and
splitOn are compiled externally and do not reduce inside the kernel, so the
handful of string operations the source uses are given here as directly
computable definitions over the character list of the string, with the same
semantics (the replace call of the source has a single-character pattern,
and str.lower is applied to ASCII file paths). -/

/-- str.startswith. -/
def str_startswith (s pre : String) : Bool := pre.data.isPrefixOf s.data

/-- Membership of a character in a string. -/
def str_contains_char (s : String) (c : Char) : Bool := s.data.contains c

/-- Substring occurrence on character lists (the Python in operator). -/
def list_infix (pat s : List Char) : Bool :=
  pat.isPrefixOf s ||
    (match s with
     | [] => false
     | _ :: t => list_infix pat t)

/-- The Python in operator on strings. -/
def str_contains_sub (s pat : String) : Bool := list_infix pat.data s.data

/-- str.lower. -/
def str_lower (s : String) : String := String.mk (s.data.map Char.toLower)

/-- str.replace with the single-character backslash pattern, as used to
normalize path separators. -/
def normalize_seps (s : String) : String :=
  String.mk (s.data.map (fun c => if c == '\\' then '/' else c))

/-! ### Permission engine (app/core/permission_engine.py) -/

/-- Runtime resource discriminators extracted from audit-event argument
tuples: a file path, an open mode string, a socket object, a socket address
pair, or a command string. -/
inductive Res where
  | path (p : String)
  | mode (m : String)
  | sockObj
  | addr (host : String) (port : Nat)
  | cmd (c : String)
deriving DecidableEq, Repr

/-- PermissionDefinition dataclass: a capability with its manifest-matching
rule and its runtime resource matcher. -/
structure PermissionDefinition where
  name : String
  match_type : String
  event_names : List String
  match_resource_pattern : Option String
  resource_matcher : Option Res → Bool

/-- file.read.plugin: governs the open event, matcher checks the mode
string for a read marker. -/
def file_read_plugin : PermissionDefinition :=
  { name := "file.read.plugin", match_type := "file", event_names := ["open"],
    match_resource_pattern := some "read",
    resource_matcher := fun r => match r with
      | some (.mode m) => str_contains_char m 'r'
      | _ => false }

/-- file.write.plugin: governs the open event, matcher checks the mode
string for a write marker (w, a or +). -/
def file_write_plugin : PermissionDefinition :=
  { name := "file.write.plugin", match_type := "file", event_names := ["open"],
    match_resource_pattern := some "write",
    resource_matcher := fun r => match r with
      | some (.mode m) => str_contains_char m 'w' || str_contains_char m 'a' || str_contains_char m '+'
      | _ => false }

/-- network.https: governs socket.connect, matcher accepts address pairs
with port 443 (the isinstance guard of the source makes it false on any
non-address argument). -/
def network_https : PermissionDefinition :=
  { name := "network.https", match_type := "network", event_names := ["socket.connect"],
    match_resource_pattern := some "outbound:https",
    resource_matcher := fun r => match r with
      | some (.addr _ port) => port == 443
      | _ => false }

/-- network.http: like network.https for port 80. -/
def network_http : PermissionDefinition :=
  { name := "network.http", match_type := "network", event_names := ["socket.connect"],
    match_resource_pattern := some "outbound:http",
    resource_matcher := fun r => match r with
      | some (.addr _ port) => port == 80
      | _ => false }

/-- api.create_route: no governed audit events, matcher accepts anything. -/
def api_create_route : PermissionDefinition :=
  { name := "api.create_route", match_type := "api", event_names := [],
    match_resource_pattern := some "create_route",
    resource_matcher := fun _ => true }

/-- system.subprocess: governs os.system and every event whose name starts
with the subprocess. key; matcher accepts any command. -/
def system_subprocess : PermissionDefinition :=
  { name := "system.subprocess", match_type := "system",
    event_names := ["os.system", "subprocess."],
    match_resource_pattern := some "subprocess",
    resource_matcher := fun _ => true }

/-- The registry built by PermissionEngine._register_default_permissions,
in registration order. -/
def registered_permissions : List PermissionDefinition :=
  [file_read_plugin, file_write_plugin, network_https, network_http,
   api_create_route, system_subprocess]

/-- PermissionEngine.get_permission_definition. -/
def get_permission_definition (n : String) : Option PermissionDefinition :=
  registered_permissions.find? (fun p => p.name == n)

/-- The engine's internal event map, keys in first-registration order, each
value list in registration order (built incrementally by register). -/
def event_map : List (String × List PermissionDefinition) :=
  [("open", [file_read_plugin, file_write_plugin]),
   ("socket.connect", [network_https, network_http]),
   ("os.system", [system_subprocess]),
   ("subprocess.", [system_subprocess])]

/-- PermissionEngine.map_event_to_permissions: exact event lookup, falling
back to key-prefix matching for dynamically named events; then per
definition the resource matcher is applied to the argument selected for
this event shape, and the first positional argument is returned as the
matched resource. -/
def map_event_to_permissions (event : String) (args : List Res) :
    List (PermissionDefinition × Option Res) :=
  let potential : List PermissionDefinition :=
    match List.lookup event event_map with
    | some perms => perms
    | none =>
        event_map.foldl
          (fun (acc : List PermissionDefinition) kv =>
            if str_startswith event kv.1 then acc ++ kv.2 else acc) []
  potential.filterMap (fun perm =>
    let resource_to_return := args[0]?
    let resource_to_match : Option Res :=
      if event == "open" && args.length > 1 then args[1]?
      else if event == "socket.connect" && args.length > 1 then args[1]?
      else if str_startswith event "subprocess." && !args.isEmpty then args[0]?
      else args[0]?
    if perm.resource_matcher resource_to_match then
      some (perm, resource_to_return)
    else none)

/-! ### Permission manager (app/plugins/interface.py, SandboxPermissionManager) -/

/-- Glob matching on character lists, modelling fnmatch.fnmatch on POSIX
for the star and question-mark wildcards (no permission name registered by
the engine uses bracket classes). First argument is the pattern. -/
def globMatch (p s : List Char) : Bool :=
  match p, s with
  | [], [] => true
  | [], _ :: _ => false
  | '*' :: ps, s0 =>
      globMatch ps s0 ||
        (match s0 with
         | [] => false
         | _ :: s2 => globMatch ('*' :: ps) s2)
  | '?' :: ps, _ :: s2 => globMatch ps s2
  | '?' :: _, [] => false
  | ch :: ps, c :: s2 => ch == c && globMatch ps s2
  | _ :: _, [] => false
termination_by (s.length, p.length)

/-- fnmatch.fnmatch(requested, granted_pattern) as used by
SandboxPermissionManager._permission_name_matches. -/
def fnmatch_match (requested pattern : String) : Bool :=
  globMatch pattern.data requested.data

/-- SandboxPermissionManager.check_permission: direct name membership in
the granted set, else a wildcard pass where a granted pattern matches the
requested name and the granted name's registered definition accepts the
resource. -/
def check_permission (granted : List (String × List String))
    (plugin_name required_perm_name : String) (resource : Option Res) : Bool :=
  match List.lookup plugin_name granted with
  | none => false
  | some perms =>
    if perms.contains required_perm_name then true
    else
      perms.any (fun granted_name =>
        fnmatch_match required_perm_name granted_name &&
          (match get_permission_definition granted_name with
           | some d => d.resource_matcher resource
           | none => false))

/-- SandboxPermissionManager.has_permission_prefix: does the plugin hold
any granted name starting with the given string. -/
def has_permission_prefixed (granted : List (String × List String))
    (plugin_name pre : String) : Bool :=
  match List.lookup plugin_name granted with
  | none => false
  | some perms => perms.any (fun g => str_startswith g pre)

/-- SandboxPermissionManager.log_violation: append the message to the
plugin's violation list, creating the list on first violation. -/
def log_violation (v : List (String × List String))
    (plugin_name msg : String) : List (String × List String) :=
  if v.any (fun p => p.1 == plugin_name) then
    v.map (fun p => if p.1 == plugin_name then (p.1, p.2 ++ [msg]) else p)
  else v ++ [(plugin_name, [msg])]

/-! ### Audit hook manager (app/core/audit_sandbox.py) -/

/-- The audit events intercepted and examined by the hook, carrying the
argument shapes CPython passes for them (the open mode of the builtin open
call is a string). -/
inductive AuditEvent where
  | openEv (path : String) (mode : String)
  | socketConnect (host : String) (port : Nat)
  | osRemove (path : String)
  | osUnlink (path : String)
  | osRename (src dst : String)
  | osSystem (command : String)
  | subprocessEv (suffixName : String) (command : String)
deriving DecidableEq, Repr

/-- The audit-event name string. -/
def eventName : AuditEvent → String
  | .openEv _ _ => "open"
  | .socketConnect _ _ => "socket.connect"
  | .osRemove _ => "os.remove"
  | .osUnlink _ => "os.unlink"
  | .osRename _ _ => "os.rename"
  | .osSystem _ => "os.system"
  | .subprocessEv s _ => "subprocess." ++ s

/-- The audit-event argument tuple, as resource discriminators. -/
def eventArgs : AuditEvent → List Res
  | .openEv p m => [.path p, .mode m]
  | .socketConnect h port => [.sockObj, .addr h port]
  | .osRemove p => [.path p]
  | .osUnlink p => [.path p]
  | .osRename a b => [.path a, .path b]
  | .osSystem c => [.cmd c]
  | .subprocessEv _ c => [.cmd c]

/-- os.path.abspath against the process working directory: identity on
absolute paths, else prefix the working directory. -/
def abspath (cwd p : String) : String :=
  if str_startswith p "/" then p else cwd ++ "/" ++ p

/-- os.path.join for a relative second component. -/
def joinPath (a b : String) : String := a ++ "/" ++ b

/-- The containment test used by the jail: startswith(base + sep) or exact
equality. -/
def within_dir (absP base : String) : Bool :=
  str_startswith absP (base ++ "/") || absP == base

/-- The mutable state visible to the audit hook: the process working
directory, the plugin root-path registry, the granted capability sets and
the per-plugin violation logs. -/
structure AuditState where
  cwd : String
  plugin_root_paths : List (String × String)
  granted_permissions : List (String × List String)
  permission_violations : List (String × List String)
deriving DecidableEq, Repr

/-- Outcome of one hook invocation: the operation proceeds, or a
PermissionError with the given message is raised, in both cases with the
resulting state. -/
inductive HookResult where
  | allowed (s : AuditState)
  | denied (msg : String) (s : AuditState)
deriving DecidableEq, Repr

/-- Log the violation for the plugin and raise PermissionError, the
denial pattern shared by every check of the hook. -/
def deny_with (s : AuditState) (plugin msg : String) : HookResult :=
  .denied msg
    { s with permission_violations := log_violation s.permission_violations plugin msg }

def secure_dir_violation_msg (plugin path : String) : String :=
  "Plugin " ++ plugin ++ " attempted to access system secure directory: " ++
    path ++ ". Access denied!"

def own_lock_violation_msg (plugin path : String) : String :=
  "Plugin " ++ plugin ++ " attempted to access its own lock file: " ++ path

def lock_modification_msg (plugin event path : String) : String :=
  "Plugin " ++ plugin ++ " attempted to modify a lock file via " ++ event ++
    ": " ++ path

def root_not_registered_msg (plugin : String) : String :=
  "Plugin " ++ plugin ++ " root path not registered"

def jail_violation_msg (plugin path : String) : String :=
  "Plugin " ++ plugin ++
    " attempted to access path outside its allowed directories: " ++ path

/-- Rendering of the first positional argument in the capability denial
message (str of the argument, N/A when the tuple is empty). -/
def res_display : Option Res → String
  | some (.path p) => p
  | some (.mode m) => m
  | some (.cmd c) => c
  | some (.addr h _) => h
  | some .sockObj => "socket"
  | none => "N/A"

def capability_violation_msg (plugin event : String) (checked : List String)
    (resource : Option Res) : String :=
  "Plugin " ++ plugin ++ " blocked from performing unauthorized action. Event: " ++
    event ++ ", Required one of Permissions: " ++ toString checked ++
    ", Resource: " ++ res_display resource

/-- AuditHookManager._is_lock_file_access for a string-mode open event.
Denies any path strictly under the reserved system_secure directory, and
the exact path of the acting plugin's own permissions.lock.json when its
root is registered. The except-branch string fallback of the source only
runs when path resolution itself raises, which cannot happen in this pure
path model. -/
def is_lock_file_access_check (s : AuditState) (plugin path : String) : HookResult :=
  let absP := abspath s.cwd path
  let secureDir := abspath s.cwd (joinPath s.cwd "system_secure")
  if str_startswith absP (secureDir ++ "/") then
    deny_with s plugin (secure_dir_violation_msg plugin path)
  else
    match List.lookup plugin s.plugin_root_paths with
    | some root =>
        if absP == joinPath (abspath s.cwd root) "permissions.lock.json" then
          deny_with s plugin (own_lock_violation_msg plugin path)
        else .allowed s
    | none => .allowed s

/-- The path arguments inspected by _is_lock_file_modification for each
event kind. -/
def lock_modification_paths : AuditEvent → List String
  | .osRemove p => [p]
  | .osUnlink p => [p]
  | .osRename a b => [a, b]
  | _ => []

/-- AuditHookManager._is_lock_file_modification: deny when any inspected
path, lowercased and with backslashes normalized, contains the lock-file
name. -/
def is_lock_file_modification_check (s : AuditState) (plugin : String)
    (ev : AuditEvent) : HookResult :=
  match (lock_modification_paths ev).find?
      (fun p => str_contains_sub (normalize_seps (str_lower p)) "permissions.lock.json") with
  | some p => deny_with s plugin (lock_modification_msg plugin (eventName ev) p)
  | none => .allowed s

/-- The core security-boundary checks the hook runs before mapping the
event to permissions (lock-file protection). -/
def lock_stage (s : AuditState) (plugin : String) (ev : AuditEvent) : HookResult :=
  match ev with
  | .openEv p _ => is_lock_file_access_check s plugin p
  | .osRemove _ => is_lock_file_modification_check s plugin ev
  | .osUnlink _ => is_lock_file_modification_check s plugin ev
  | .osRename _ _ => is_lock_file_modification_check s plugin ev
  | _ => .allowed s

/-- AuditHookManager._enforce_directory_jail: none means the path check
passed, some msg is the PermissionError message. -/
def enforce_directory_jail (s : AuditState) (plugin path : String) : Option String :=
  let absP := abspath s.cwd path
  match List.lookup plugin s.plugin_root_paths with
  | none => some (root_not_registered_msg plugin)
  | some root =>
      let rootAbs := abspath s.cwd root
      let tempAbs := abspath s.cwd (joinPath (joinPath (joinPath s.cwd "data") "temp") plugin)
      if within_dir absP rootAbs || within_dir absP tempAbs then none
      else if has_permission_prefixed s.granted_permissions plugin "system." then none
      else some (jail_violation_msg plugin path)

/-- The directory-jail layer as run by the hook: applied to open events
only, logging the violation and re-raising on failure. -/
def jail_stage (s : AuditState) (plugin : String) (ev : AuditEvent) : HookResult :=
  match ev with
  | .openEv p _ =>
      match enforce_directory_jail s plugin p with
      | some msg => deny_with s plugin msg
      | none => .allowed s
  | _ => .allowed s

/-- The capability check of the hook: proceed when the plugin passes
check_permission for at least one required capability (logical OR), else
log a violation listing every checked name and raise. -/
def capability_stage (s : AuditState) (plugin : String) (ev : AuditEvent)
    (required : List (PermissionDefinition × Option Res)) : HookResult :=
  if required.any (fun pr => check_permission s.granted_permissions plugin pr.1.name pr.2) then
    .allowed s
  else
    deny_with s plugin
      (capability_violation_msg plugin (eventName ev)
        (required.map (fun pr => pr.1.name)) ((eventArgs ev)[0]?))

/-- AuditHookManager._audit_hook: pass through when no plugin scope is
active; else lock-file checks, then event-to-permission mapping with
pass-through on an empty mapping, then the directory jail for open events,
then the OR capability check. -/
def audit_hook (s : AuditState) (ctx : Option String) (ev : AuditEvent) : HookResult :=
  match ctx with
  | none => .allowed s
  | some plugin =>
    match lock_stage s plugin ev with
    | .denied m s2 => .denied m s2
    | .allowed s1 =>
      let required := map_event_to_permissions (eventName ev) (eventArgs ev)
      if required.isEmpty then .allowed s1
      else
        match jail_stage s1 plugin ev with
        | .denied m s2 => .denied m s2
        | .allowed s2 => capability_stage s2 plugin ev required

/-! ### Dependency resolver (app/plugins/loader.py, DependencyResolver) -/

/-- The dependency graph: a dict from plugin name to its declared
dependency names. -/
abbrev Graph := List (String × List String)

/-- Dict assignment on an association list: replace in place when the key
exists, else append. -/
def assoc_set {β : Type} (l : List (String × β)) (k : String) (v : β) :
    List (String × β) :=
  if l.any (fun p => p.1 == k) then
    l.map (fun p => if p.1 == k then (k, v) else p)
  else l ++ [(k, v)]

/-- DependencyResolver.add_plugin. -/
def add_plugin (g : Graph) (name : String) (deps : List String) : Graph :=
  assoc_set g name deps

/-- The resolver's traversal state: the temporary marks of the current
DFS path, the resolved set, and the output order. -/
structure ResolveState where
  temp : List String
  resolved : List String
  order : List String
deriving DecidableEq, Repr

def cycle_msg (node : String) : String :=
  "Circular dependency detected involving " ++ node

/-- The inner visit closure of DependencyResolver.resolve_dependencies:
error on a temporary mark (cycle), return on an already resolved node,
else mark, recurse into each dependency present in the graph (missing
dependencies only get a warning), then unmark and append the node to the
order. The fuel bounds the recursion depth; the callers pass one more than
the graph size, which the distinct temporary marks can never exhaust. -/
def visit (g : Graph) : Nat → String → ResolveState → Except String ResolveState
  | 0, _, _ => .error "recursion limit exceeded"
  | fuel + 1, node, st =>
    if node ∈ st.temp then .error (cycle_msg node)
    else if node ∈ st.resolved then .ok st
    else
      match ((List.lookup node g).getD []).foldlM
          (fun acc dep =>
            if (List.lookup dep g).isNone then pure acc
            else visit g fuel dep acc)
          { st with temp := node :: st.temp } with
      | .error e => .error e
      | .ok st2 =>
          .ok { temp := st2.temp.erase node,
                resolved := node :: st2.resolved,
                order := st2.order ++ [node] }

/-- DependencyResolver.resolve_dependencies: visit every graph key in
insertion order, skipping already resolved ones, and return the
accumulated order; any cycle raises. -/
def resolve_dependencies (g : Graph) : Except String (List String) :=
  match (g.map Prod.fst).foldlM
      (fun st plugin =>
        if plugin ∈ st.resolved then pure st
        else visit g (g.length + 1) plugin st)
      ({ temp := [], resolved := [], order := [] } : ResolveState) with
  | .error e => .error e
  | .ok st => .ok st.order

/-! ### Version constraints (app/plugins/loader.py, PluginLoader._version_satisfies) -/

/-- PluginLoader._version_satisfies. The packaging library is external to
the repository, so its two parsers and its containment test are abstract
parameters; a parse failure of either the version or the specifier is the
InvalidVersion / InvalidSpecifier exception, answered permissively with
true after a warning. An empty constraint is immediately true. -/
def version_satisfies (V S : Type) (pv : String → Option V)
    (ps : String → Option S) (ct : V → S → Bool)
    (version constraint : String) : Bool :=
  if constraint = "" then true
  else
    match pv version with
    | none => true
    | some v =>
      match ps constraint with
      | none => true
      | some s => ct v s

/-! ### Plugin loader (app/plugins/loader.py, PluginLoader) -/

/-- Loader state threaded through load operations: the loaded plugin
instances, the stored metadata (name to manifest version), the registered
root paths, and the lock files the loader itself has written. -/
structure LoaderState where
  plugins : List (String × Nat)
  plugin_metadata : List (String × String)
  plugin_root_paths : List (String × String)
  created_lock_files : List String
deriving DecidableEq, Repr

/-- The filesystem, registry and import effects of one load_plugin call,
abstracted per plugin name: directory and manifest probes, the install
registry, optional signature verification, dynamic import and
instantiation, lock-file existence and readability, and initialization
outcomes. -/
structure LoadEnv where
  dir_exists : String → Bool
  registry_installed : String → Bool
  signature_ok : String → Bool
  group_yml_exists : String → Bool
  module_file_found : String → Bool
  metadata_ok : String → Bool
  manifest_version : String → String
  direct_load : String → Option Nat
  lock_file_exists : String → Bool
  lock_load_ok : String → Bool
  init_ok : String → Bool
  group_init_ok : String → Bool
  is_meta_plugin : String → Bool
  subplugins_ok : String → Bool
  plugin_abs_path : String → String

/-- PluginLoader.load_plugin_group: import and instantiate the meta
plugin, initialize it, require the meta-plugin capability, load its basic
metadata, then create the permission lock file from the manifest
permissions (overwriting any existing one), load the grants from it,
record the root path, load sub-plugins and preset chains, and store the
instance. Any exception is caught by the enclosing try and yields none
with the mutations made so far kept. -/
def load_plugin_group (env : LoadEnv) (s : LoaderState) (name : String) :
    Option Nat × LoaderState :=
  if !env.module_file_found name then (none, s)
  else
    match env.direct_load name with
    | none => (none, s)
    | some inst =>
      if !env.group_init_ok name then (none, s)
      else if !env.is_meta_plugin name then (none, s)
      else if !env.metadata_ok name then (none, s)
      else
        let s1 := { s with created_lock_files := s.created_lock_files ++ [name] }
        if !env.lock_load_ok name then (none, s1)
        else
          let s2 := { s1 with
            plugin_root_paths := assoc_set s1.plugin_root_paths name (env.plugin_abs_path name) }
          if !env.subplugins_ok name then (none, s2)
          else
            (some inst,
              { s2 with
                plugins := assoc_set s2.plugins name inst,
                plugin_metadata := assoc_set s2.plugin_metadata name (env.manifest_version name) })

/-- PluginLoader.load_plugin: directory probe, install-registry gate,
optional signature gate, dispatch to the group path when group.yml exists;
else module probe, metadata load, direct import and instantiation, root
registration, then the lock-file gate (missing lock is a hard skip),
grant loading, sandboxed initialization, and storing instance plus
metadata. Failures return none; only mutations already performed remain. -/
def load_plugin (env : LoadEnv) (s : LoaderState) (name : String) :
    Option Nat × LoaderState :=
  if !env.dir_exists name then (none, s)
  else if !env.registry_installed name then (none, s)
  else if !env.signature_ok name then (none, s)
  else if env.group_yml_exists name then load_plugin_group env s name
  else if !env.module_file_found name then (none, s)
  else if !env.metadata_ok name then (none, s)
  else
    match env.direct_load name with
    | none => (none, s)
    | some inst =>
      let s1 := { s with
        plugin_root_paths := assoc_set s.plugin_root_paths name (env.plugin_abs_path name) }
      if !env.lock_file_exists name then (none, s1)
      else if !env.lock_load_ok name then (none, s1)
      else if !env.init_ok name then (none, s1)
      else
        (some inst,
          { s1 with
            plugins := assoc_set s1.plugins name inst,
            plugin_metadata := assoc_set s1.plugin_metadata name (env.manifest_version name) })

/-- The removal step at the head of PluginLoader.reload_plugin: when the
plugin is loaded, shut it down and delete its instance, metadata and
root-path registration. -/
def reload_remove (s : LoaderState) (name : String) : LoaderState :=
  if (List.lookup name s.plugins).isSome then
    { s with plugins := s.plugins.filter (fun p => p.1 != name),
             plugin_metadata := s.plugin_metadata.filter (fun p => p.1 != name),
             plugin_root_paths := s.plugin_root_paths.filter (fun p => p.1 != name) }
  else s

/-- PluginLoader.reload_plugin: remove the existing instance first, then
attempt a fresh load; the result reports whether the load produced an
instance. -/
def reload_plugin (env : LoadEnv) (s : LoaderState) (name : String) :
    Bool × LoaderState :=
  let s1 := reload_remove s name
  match load_plugin env s1 name with
  | (some _, s2) => (true, s2)
  | (none, s2) => (false, s2)

/-! ### Batch loading (app/plugins/loader.py, PluginLoader.load_all_plugins) -/

/-- The manifest information collected per candidate by
_load_plugin_metadata: version string, declared dependency names, and the
per-dependency version constraints. -/
structure ManifestInfo where
  version : String
  deps : List String
  constraints : List (String × String)
deriving DecidableEq, Repr

/-- The dependency graph built from candidate manifests. -/
def build_graph (candidates : List (String × ManifestInfo)) : Graph :=
  candidates.foldl (fun acc c => add_plugin acc c.1 c.2.deps) []

/-- The unmet-dependency scan of the per-plugin gate in load_all_plugins:
a dependency is unmet when it is not in the loaded metadata map, or when
it carries a constraint that its loaded version fails. -/
def unmet_deps (V S : Type) (pv : String → Option V) (ps : String → Option S)
    (ct : V → S → Bool) (loaded_metadata : List (String × String))
    (deps : List String) (constraints : List (String × String)) : List String :=
  deps.filter (fun dep =>
    match List.lookup dep loaded_metadata with
    | none => true
    | some depVer =>
      match List.lookup dep constraints with
      | some c => !(version_satisfies V S pv ps ct depVer c)
      | none => false)

/-- PluginLoader.load_all_plugins, from the point where candidate
metadata is available: build the dependency graph, resolve it (a cycle is
a hard failure that loads nothing), then in resolved order run the
unmet-dependency gate and load_plugin for each plugin, skipping failures. -/
def load_all_plugins (V S : Type) (pv : String → Option V)
    (ps : String → Option S) (ct : V → S → Bool) (env : LoadEnv)
    (candidates : List (String × ManifestInfo)) (s : LoaderState) : LoaderState :=
  let g := build_graph candidates
  match resolve_dependencies g with
  | .error _ => s
  | .ok order =>
    order.foldl
      (fun st name =>
        let mi := (List.lookup name candidates).getD
          { version := "unknown", deps := [], constraints := [] }
        let unmet := unmet_deps V S pv ps ct st.plugin_metadata mi.deps mi.constraints
        if !unmet.isEmpty then st
        else (load_plugin env st name).2)
      s

/-! ### Request context (app/plugins/interface.py, RequestContext) -/

/-- Python values stored in the request and response dicts. -/
inductive PyVal where
  | s (v : String)
  | b (v : Bool)
  | n (v : Int)
  | l (elems : List PyVal)
  | d (entries : List (String × PyVal))

/-- Python dict membership. -/
def dict_contains (rd : List (String × PyVal)) (k : String) : Bool :=
  rd.any (fun p => p.1 == k)

/-- Python dict subscript read. -/
def dict_get (rd : List (String × PyVal)) (k : String) : Option PyVal :=
  List.lookup k rd

/-- Python dict subscript assignment. -/
def dict_set (rd : List (String × PyVal)) (k : String) (v : PyVal) :
    List (String × PyVal) :=
  if dict_contains rd k then
    rd.map (fun p => if p.1 == k then (k, v) else p)
  else rd ++ [(k, v)]

/-- The RequestContext dataclass. trace_log is none when tracing is off. -/
structure RequestContext where
  request_data : List (String × PyVal)
  response_data : List (String × PyVal)
  user_id : Option String
  current_plugin_name : Option String
  route : Option String
  is_short_circuited : Bool
  trace_log : Option (List String)
  shared_state : List (String × PyVal)

/-- RequestContext.add_trace: append the message when tracing is enabled,
else do nothing. The source prefixes a monotonic wall-clock timestamp,
which lies outside this pure model; the entry text itself is kept. -/
def add_trace (ctx : RequestContext) (msg : String) : RequestContext :=
  match ctx.trace_log with
  | none => ctx
  | some l => { ctx with trace_log := some (l ++ [msg]) }

/-- The response-level error entry appended for a failing plugin. -/
def error_entry (plugin msg : String) : PyVal :=
  .d [("plugin", .s plugin), ("error", .s msg)]

/-- The error bookkeeping of the runner's except branch: create the errors
list if absent, then append the entry for the failing plugin. A non-list
errors value would be a type error in the source and is left unchanged. -/
def append_error (rd : List (String × PyVal)) (plugin msg : String) :
    List (String × PyVal) :=
  let rd1 := if dict_contains rd "errors" then rd else dict_set rd "errors" (.l [])
  match dict_get rd1 "errors" with
  | some (.l es) => dict_set rd1 "errors" (.l (es ++ [error_entry plugin msg]))
  | _ => rd1

/-! ### Chain execution (app/core/chain_runner.py, ChainRunner._execute_chain) -/

/-- A plugin handle method: it receives the bound continuation (none at
the last step) and the context, and returns the context as mutated at the
point of return or of raising, together with the raised exception message
if any. The two-phase contract of run validates every chain entry before
execution, so handlers are modelled as a total map from reference names. -/
abbrev Handler :=
  Option (RequestContext → RequestContext) → RequestContext →
    RequestContext × Option String

/-- A handle method that raises the given exception message immediately,
used to model a failing plugin step. -/
def raising_handler (msg : String) : Handler := fun _ c => (c, some msg)

def short_circuit_trace_msg (i : Nat) : String :=
  "Chain short-circuited at index " ++ (toString i ++ ". Halting execution.")

def end_of_chain_trace_msg : String := "Reached end of chain."

def start_trace_msg (i : Nat) (name : String) : String :=
  "Executing plugin at index " ++ (toString i ++ (": " ++ name))

def finish_trace_msg (name : String) : String :=
  "Plugin " ++ (name ++ " execution finished successfully.")

def fail_trace_msg (name err : String) : String :=
  "Plugin " ++ (name ++ (" execution FAILED: " ++ err))

/-- ChainRunner._execute_chain: stop with a trace entry when already
short-circuited; stop at the end of the chain; else record the current
plugin, trace the step start, bind the continuation for the next index,
and run the handler in the plugin's identity scope. An exception from the
handler is caught here: it is traced, appended to the response-level
errors list, and turns on the short-circuit flag; it never escapes. -/
def execute_chain (ps : String → Handler) (chain : List String) (i : Nat)
    (ctx : RequestContext) : RequestContext :=
  if ctx.is_short_circuited then add_trace ctx (short_circuit_trace_msg i)
  else if h : chain.length ≤ i then add_trace ctx end_of_chain_trace_msg
  else
    let name := chain.get ⟨i, Nat.lt_of_not_le h⟩
    let ctx1 := add_trace { ctx with current_plugin_name := some name }
      (start_trace_msg i name)
    let nextCb : Option (RequestContext → RequestContext) :=
      if i + 1 < chain.length then
        some (fun c => execute_chain ps chain (i + 1) c)
      else none
    match ps name nextCb ctx1 with
    | (ctx2, none) => add_trace ctx2 (finish_trace_msg name)
    | (ctx2, some e) =>
        let ctx3 := add_trace ctx2 (fail_trace_msg name e)
        let ctx4 := { ctx3 with response_data := append_error ctx3.response_data name e }
        { ctx4 with is_short_circuited := true }
termination_by chain.length - i
decreasing_by
  simp_wf
  omega

/-! ### Chain resolution (app/core/chain_runner.py, ChainRunner.get_chain_for_route) -/

/-- The chain runner's view of a loaded plugin for resolution purposes:
whether it is a MetaPlugin, and its registered preset chains (each stored
under its full key, the value being the plugin list of the definition). -/
structure RunnerPluginInfo where
  is_meta : Bool
  chains : List (String × List String)
deriving DecidableEq, Repr

/-- The chain runner's state: the loaded plugin registry, the route
configuration, and the route-to-chain cache. -/
structure ChainRunnerState where
  plugins : List (String × RunnerPluginInfo)
  routes_config : List (String × List String)
  chain_cache : List (String × List String)
deriving DecidableEq, Repr

/-- ChainRunner.clear_cache. -/
def clear_cache (st : ChainRunnerState) : ChainRunnerState :=
  { st with chain_cache := [] }

/-- routes_config.get_chain_for_route: the configured chain, empty when
the route is not configured. -/
def route_cfg_chain (rc : List (String × List String)) (route : String) :
    List String :=
  (List.lookup route rc).getD []

/-- split(sep, 1): the part before the first colon, and everything after
it (empty when there is no colon). -/
def split_meta_ref (r : String) : String × String :=
  let pre := r.data.takeWhile (fun c => c != ':')
  match r.data.dropWhile (fun c => c != ':') with
  | [] => (String.mk pre, "")
  | _ :: rest => (String.mk pre, String.mk rest)

def cache_hit_trace_msg (route : String) (chain : List String) : String :=
  "Chain for route " ++ (route ++ (" found in cache: " ++ toString chain))

def cache_miss_trace_msg (route : String) : String :=
  "Chain for route " ++ (route ++
    " not in cache, resolving from config or meta plugin.")

def initial_chain_trace_msg (chain : List String) : String :=
  "Initial chain from config: " ++ toString chain

def meta_route_trace_msg (key : String) : String :=
  "Meta chain " ++ (key ++ " resolved via meta plugin registry.")

def expand_trace_msg (ref : String) (preset : List String) : String :=
  "Expanding meta-chain " ++ (ref ++ (" to " ++ toString preset))

def skip_next_trace_msg : String := "  -> Skipping __NEXT__ placeholder."

def normal_ref_trace_msg (ref : String) : String :=
  "Adding normal plugin ref " ++ (ref ++ " to chain.")

def final_cached_trace_msg (route : String) (chain : List String) : String :=
  "Resolved and cached final chain for route " ++
    (route ++ (": " ++ toString chain))

/-- One step of the preset-expansion loop of get_chain_for_route: a
reference containing a colon and not an http URL is expanded through a
loaded MetaPlugin's preset chain when one matches, splicing its plugin
list and skipping the continuation placeholder; anything else is appended
as a normal reference. The accumulator carries the expanded chain and the
trace entries. -/
def expand_chain_step (plugins : List (String × RunnerPluginInfo))
    (acc : List String × List String) (ref : String) :
    List String × List String :=
  if str_contains_char ref ':' && !(str_startswith ref "http") then
    match List.lookup (split_meta_ref ref).1 plugins with
    | some mp =>
      if mp.is_meta then
        match List.lookup ref mp.chains with
        | some preset =>
            (acc.1 ++ preset.filter (fun item => item != "__NEXT__"),
             acc.2 ++ [expand_trace_msg ref preset] ++
               preset.filterMap (fun item =>
                 if item == "__NEXT__" then some skip_next_trace_msg else none))
        | none => (acc.1 ++ [ref], acc.2 ++ [normal_ref_trace_msg ref])
      else (acc.1 ++ [ref], acc.2 ++ [normal_ref_trace_msg ref])
    | none => (acc.1 ++ [ref], acc.2 ++ [normal_ref_trace_msg ref])
  else (acc.1 ++ [ref], acc.2 ++ [normal_ref_trace_msg ref])

/-- ChainRunner.get_chain_for_route: return the cached chain when present;
else read the configured chain, fall back to a meta-plugin preset for a
colon route when the configuration is empty, expand preset references,
store the result in the cache and return it. The third component is the
list of trace entries this call appends to the context. -/
def get_chain_for_route (st : ChainRunnerState) (route : String) :
    List String × ChainRunnerState × List String :=
  match List.lookup route st.chain_cache with
  | some chain => (chain, st, [cache_hit_trace_msg route chain])
  | none =>
    let chain0 := route_cfg_chain st.routes_config route
    let tr1 := [cache_miss_trace_msg route, initial_chain_trace_msg chain0]
    let step1 : List String × List String :=
      if chain0.isEmpty && str_contains_char route ':' then
        let normalized := String.mk (route.data.dropWhile (fun c => c == '/'))
        let mc := split_meta_ref normalized
        match List.lookup mc.1 st.plugins with
        | some mp =>
          if mp.is_meta then
            let key := mc.1 ++ ":" ++ mc.2
            match List.lookup key mp.chains with
            | some defn => (defn, tr1 ++ [meta_route_trace_msg key])
            | none => (chain0, tr1)
          else (chain0, tr1)
        | none => (chain0, tr1)
      else (chain0, tr1)
    let expanded := step1.1.foldl (expand_chain_step st.plugins) ([], step1.2)
    (expanded.1,
     { st with chain_cache := assoc_set st.chain_cache route expanded.1 },
     expanded.2 ++ [final_cached_trace_msg route expanded.1])

/-! ### Specification predicates for the dependency resolver -/

/-- A valid topological order for a graph: every element's in-graph
dependencies occur at strictly earlier positions. -/
def topoValid (g : Graph) (order : List String) : Prop :=
  ∀ (i : Nat) (n : String) (dps : List String),
    order[i]? = some n → List.lookup n g = some dps →
    ∀ d ∈ dps, (List.lookup d g).isSome = true →
      ∃ j, j < i ∧ order[j]? = some d

/-- The depends-on edge of the dependency graph. -/
def edge_to (g : Graph) (a b : String) : Prop :=
  ∃ dps, List.lookup a g = some dps ∧ b ∈ dps

/-- A dependency cycle: a non-empty list of graph nodes, consecutive ones
connected by depends-on edges, whose last element depends on the first
(covers self-cycles and longer chains). -/
def IsDepCycle (g : Graph) (c : List String) : Prop :=
  c ≠ [] ∧ (∀ n ∈ c, (List.lookup n g).isSome = true) ∧
  List.Chain' (edge_to g) c ∧
  (∀ la f, c.getLast? = some la → c.head? = some f → edge_to g la f)

/-- The invariant of the resolver traversal state: the resolved set and
the output order have identical membership, the order has no duplicates,
and the order is topologically valid so far. -/
def ResolverInv (g : Graph) (st : ResolveState) : Prop :=
  (∀ x, x ∈ st.resolved ↔ x ∈ st.order) ∧ st.order.Nodup ∧ topoValid g st.order

/-- The guarantees of a successful visit call: the invariant is preserved,
the temporary marks are restored, the resolved set only grows, and every
newly resolved node was not temporarily marked at entry. -/
def VisitOut (g : Graph) (st st2 : ResolveState) : Prop :=
  ResolverInv g st2 ∧ st2.temp = st.temp ∧
  (∀ x ∈ st.resolved, x ∈ st2.resolved) ∧
  (∀ x, x ∈ st2.resolved → x ∈ st.resolved ∨ x ∉ st.temp)

/-! ### Concrete states used by witnesses and counterexamples -/

/-- A small audit state: one plugin p with a registered root and no
granted capabilities. -/
def audit_state_a : AuditState :=
  { cwd := "/proj",
    plugin_root_paths := [("p", "/proj/plugins/p")],
    granted_permissions := [("p", [])],
    permission_violations := [] }

/-- Like audit_state_a but p holds network.https. -/
def audit_state_b : AuditState :=
  { cwd := "/proj",
    plugin_root_paths := [("p", "/proj/plugins/p")],
    granted_permissions := [("p", ["network.https"])],
    permission_violations := [] }

/-- A load environment in which every probe succeeds, the plugin is a
group (group.yml present), and no permission lock file exists. -/
def load_env_group_nolock : LoadEnv :=
  { dir_exists := fun _ => true,
    registry_installed := fun _ => true,
    signature_ok := fun _ => true,
    group_yml_exists := fun _ => true,
    module_file_found := fun _ => true,
    metadata_ok := fun _ => true,
    manifest_version := fun _ => "1.0",
    direct_load := fun _ => some 1,
    lock_file_exists := fun _ => false,
    lock_load_ok := fun _ => true,
    init_ok := fun _ => true,
    group_init_ok := fun _ => true,
    is_meta_plugin := fun _ => true,
    subplugins_ok := fun _ => true,
    plugin_abs_path := fun n => "/proj/plugins/" ++ n }

/-- Like load_env_group_nolock but for an ordinary plugin (no group.yml);
the missing lock file is the only obstacle to loading. -/
def load_env_plain_nolock : LoadEnv :=
  { load_env_group_nolock with group_yml_exists := fun _ => false }

/-- A loader state with plugin p loaded. -/
def loader_state_p : LoaderState :=
  { plugins := [("p", 1)],
    plugin_metadata := [("p", "1.0")],
    plugin_root_paths := [("p", "/proj/plugins/p")],
    created_lock_files := [] }

def loader_state_empty : LoaderState :=
  { plugins := [], plugin_metadata := [], plugin_root_paths := [],
    created_lock_files := [] }

/-- A request context with tracing enabled and the short-circuit flag
clear. -/
def ctx_fresh : RequestContext :=
  { request_data := [], response_data := [], user_id := none,
    current_plugin_name := none, route := none, is_short_circuited := false,
    trace_log := some [], shared_state := [] }

/-- ctx_fresh with the short-circuit flag already set. -/
def ctx_flagged : RequestContext :=
  { ctx_fresh with is_short_circuited := true }

/-! ### Helper lemmas -/

theorem lookup_assoc_set {β : Type} (l : List (String × β)) (k : String) (v : β) :
    List.lookup k (assoc_set l k v) = some v := by
  unfold assoc_set
  split
  · rename_i hany
    induction l with
    | nil => simp at hany
    | cons a t ih =>
      simp only [List.any_cons, Bool.or_eq_true] at hany
      by_cases h1 : a.1 = k
      · have hb : (a.1 == k) = true := by simpa using h1
        have hhead : (if (a.1 == k) = true then (k, v) else a) = (k, v) := by
          rw [hb]
          simp
        rw [List.map_cons, hhead]
        simp
      · have hb : (a.1 == k) = false := by simpa using h1
        have hb2 : (k == a.1) = false := by
          simp only [beq_eq_false_iff_ne, ne_eq]
          exact fun hkk => h1 hkk.symm
        have hhead : (if (a.1 == k) = true then (k, v) else a) = a := by
          rw [hb]
          simp
        have ht : (t.any fun p => p.1 == k) = true := by
          rcases hany with h | h
          · rw [h] at hb; cases hb
          · exact h
        rw [List.map_cons, hhead]
        rcases a with ⟨ak, av⟩
        rw [List.lookup_cons]
        simp only at hb2
        rw [hb2]
        exact ih ht
  · rename_i hany
    have hnone : List.lookup k l = none := by
      rw [List.lookup_eq_none_iff]
      intro p hp
      simp only [bne_iff_ne, ne_eq]
      intro hk
      exact hany (List.any_eq_true.mpr ⟨p, hp, by simpa using hk.symm⟩)
    rw [List.lookup_append, hnone]
    simp

theorem lookup_filter_ne {β : Type} (l : List (String × β)) (k : String) :
    List.lookup k (l.filter (fun p => p.1 != k)) = none := by
  rw [List.lookup_eq_none_iff]
  intro p hp
  have := (List.mem_filter.mp hp).2
  simp only [bne_iff_ne, ne_eq] at this ⊢
  exact fun hk => this (by rw [hk])

/-! ### Claim C2 -/

/-- C2: for every plugin with an active interception scope and every
granted capability set, an intercepted file access whose path lies under
the reserved secure-storage directory, or whose path is the plugin's own
lock file, is denied with a PermissionError and a logged violation before
the capability check runs: the denial and the resulting state are the same
for every granted set. The second conjunct covers lock-file modification
through os.remove. -/
theorem secure_storage_and_lock_file_denied_first :
    (∀ (s : AuditState) (plugin path mode : String),
      (str_startswith (abspath s.cwd path)
          (abspath s.cwd (joinPath s.cwd "system_secure") ++ "/") = true) ∨
      ((str_startswith (abspath s.cwd path)
          (abspath s.cwd (joinPath s.cwd "system_secure") ++ "/") = false) ∧
        ∃ root, List.lookup plugin s.plugin_root_paths = some root ∧
          abspath s.cwd path = joinPath (abspath s.cwd root) "permissions.lock.json") →
      ∃ msg, ∀ g,
        audit_hook { s with granted_permissions := g } (some plugin)
            (.openEv path mode) =
          .denied msg
            { s with
              granted_permissions := g,
              permission_violations :=
                log_violation s.permission_violations plugin msg }) ∧
    (∀ (s : AuditState) (plugin path : String),
      str_contains_sub (normalize_seps (str_lower path)) "permissions.lock.json" = true →
      ∃ msg, ∀ g,
        audit_hook { s with granted_permissions := g } (some plugin)
            (.osRemove path) =
          .denied msg
            { s with
              granted_permissions := g,
              permission_violations :=
                log_violation s.permission_violations plugin msg }) := by
  constructor
  · intro s plugin path mode h
    rcases h with hsec | ⟨hnsec, root, hroot, hlock⟩
    · refine ⟨secure_dir_violation_msg plugin path, fun g => ?_⟩
      simp [audit_hook, lock_stage, is_lock_file_access_check, deny_with, hsec]
    · refine ⟨own_lock_violation_msg plugin path, fun g => ?_⟩
      rw [hlock] at hnsec
      simp [audit_hook, lock_stage, is_lock_file_access_check, deny_with,
        hnsec, hroot, hlock]
  · intro s plugin path h
    refine ⟨lock_modification_msg plugin "os.remove" path, fun g => ?_⟩
    simp [audit_hook, lock_stage, is_lock_file_modification_check,
      lock_modification_paths, deny_with, List.find?, h, eventName]

/-- Witness for C2: a concrete open under the secure-storage directory by
plugin p is denied for every granted set. -/
theorem secure_storage_and_lock_file_denied_first_witness :
    (str_startswith (abspath audit_state_a.cwd "/proj/system_secure/k")
        (abspath audit_state_a.cwd (joinPath audit_state_a.cwd "system_secure") ++ "/") = true) ∧
    (∃ msg, ∀ g,
      audit_hook { audit_state_a with granted_permissions := g } (some "p")
          (.openEv "/proj/system_secure/k" "r") =
        .denied msg
          { audit_state_a with
            granted_permissions := g,
            permission_violations :=
              log_violation audit_state_a.permission_violations "p" msg }) :=
  ⟨by decide, secure_storage_and_lock_file_denied_first.1 audit_state_a "p"
      "/proj/system_secure/k" "r" (Or.inl (by decide))⟩

/-! ### Claim C4 -/

/-- C4: for every intercepted event with a plugin in scope that passes the
lock-file rules and the directory jail, the outcome is the pure function of
the event, its arguments and the granted set computed by the OR capability
check: when the event maps to a non-empty required set, the hook allows
the operation exactly when check_permission accepts at least one required
capability, and otherwise raises a PermissionError after appending a
violation record for that plugin. -/
theorem capability_check_or_semantics :
    ∀ (s : AuditState) (plugin : String) (ev : AuditEvent),
      lock_stage s plugin ev = .allowed s →
      jail_stage s plugin ev = .allowed s →
      map_event_to_permissions (eventName ev) (eventArgs ev) ≠ [] →
      audit_hook s (some plugin) ev =
        (if (map_event_to_permissions (eventName ev) (eventArgs ev)).any
              (fun pr => check_permission s.granted_permissions plugin pr.1.name pr.2)
         then .allowed s
         else
           .denied
             (capability_violation_msg plugin (eventName ev)
               ((map_event_to_permissions (eventName ev) (eventArgs ev)).map
                 (fun pr => pr.1.name)) ((eventArgs ev)[0]?))
             { s with
               permission_violations :=
                 log_violation s.permission_violations plugin
                   (capability_violation_msg plugin (eventName ev)
                     ((map_event_to_permissions (eventName ev) (eventArgs ev)).map
                       (fun pr => pr.1.name)) ((eventArgs ev)[0]?)) }) := by
  intro s plugin ev hlock hjail hne
  cases hreq : map_event_to_permissions (eventName ev) (eventArgs ev) with
  | nil => exact absurd hreq hne
  | cons a l =>
    have h2 : ((map_event_to_permissions (eventName ev) (eventArgs ev)).any
        (fun pr => check_permission s.granted_permissions plugin pr.1.name pr.2)) =
        (check_permission s.granted_permissions plugin a.1.name a.2 ||
          l.any fun pr => check_permission s.granted_permissions plugin pr.1.name pr.2) := by
      rw [hreq, List.any_cons]
    simp [audit_hook, hlock, hreq, hjail, capability_stage, deny_with]
    rw [h2]

/-- Witness for C4: a socket.connect to port 443 by a plugin granted
network.https passes the jail stages, maps to a non-empty required set,
and is allowed. -/
theorem capability_check_or_semantics_witness :
    lock_stage audit_state_b "p" (.socketConnect "example.com" 443) = .allowed audit_state_b ∧
    jail_stage audit_state_b "p" (.socketConnect "example.com" 443) = .allowed audit_state_b ∧
    map_event_to_permissions (eventName (.socketConnect "example.com" 443))
      (eventArgs (.socketConnect "example.com" 443)) ≠ [] ∧
    audit_hook audit_state_b (some "p") (.socketConnect "example.com" 443) =
      .allowed audit_state_b := by
  refine ⟨rfl, rfl, fun h => absurd (congrArg List.length h) (by decide), ?_⟩
  have h := capability_check_or_semantics audit_state_b "p"
    (.socketConnect "example.com" 443) rfl rfl
    (fun h => absurd (congrArg List.length h) (by decide))
  rw [h]
  decide

/-! ### Claim C3 -/

/-- C3 (amended): for every intercepted file open by a plugin in scope
that passes the lock-file rules and that maps to at least one required
capability (its mode requests read or write), a resolved path outside both
the plugin's registered root directory and its designated temp-data
directory is denied when the plugin holds no capability with the
privileged system. prefix; and whenever the path lies inside either
directory the directory-jail layer itself allows it. Opens that map to no
capability bypass the jail entirely (see the counterexample). -/
theorem directory_jail_outside_denied_inside_allowed :
    (∀ (s : AuditState) (plugin path mode root : String),
      lock_stage s plugin (.openEv path mode) = .allowed s →
      map_event_to_permissions (eventName (.openEv path mode))
        (eventArgs (.openEv path mode)) ≠ [] →
      List.lookup plugin s.plugin_root_paths = some root →
      within_dir (abspath s.cwd path) (abspath s.cwd root) = false →
      within_dir (abspath s.cwd path)
        (abspath s.cwd (joinPath (joinPath (joinPath s.cwd "data") "temp") plugin)) = false →
      has_permission_prefixed s.granted_permissions plugin "system." = false →
      audit_hook s (some plugin) (.openEv path mode) =
        .denied (jail_violation_msg plugin path)
          { s with
            permission_violations :=
              log_violation s.permission_violations plugin
                (jail_violation_msg plugin path) }) ∧
    (∀ (s : AuditState) (plugin path root : String),
      List.lookup plugin s.plugin_root_paths = some root →
      (within_dir (abspath s.cwd path) (abspath s.cwd root) = true ∨
       within_dir (abspath s.cwd path)
         (abspath s.cwd (joinPath (joinPath (joinPath s.cwd "data") "temp") plugin)) = true) →
      enforce_directory_jail s plugin path = none) := by
  constructor
  · intro s plugin path mode root hlock hne hroot hout1 hout2 hpriv
    cases hreq : map_event_to_permissions (eventName (.openEv path mode))
        (eventArgs (.openEv path mode)) with
    | nil => exact absurd hreq hne
    | cons a l =>
      simp [audit_hook, hlock, hreq, jail_stage, enforce_directory_jail,
        hroot, hout1, hout2, hpriv, deny_with]
  · intro s plugin path root hroot hin
    rcases hin with h | h <;>
      simp [enforce_directory_jail, hroot, h]

/-- Witness for C3: with plugin p holding no capabilities, a read-mode
open of a path outside both allowed directories is denied at the jail, and
a path inside the plugin root passes the jail layer. -/
theorem directory_jail_outside_denied_inside_allowed_witness :
    (lock_stage audit_state_a "p" (.openEv "/etc/passwd" "r") = .allowed audit_state_a ∧
     map_event_to_permissions (eventName (.openEv "/etc/passwd" "r"))
       (eventArgs (.openEv "/etc/passwd" "r")) ≠ [] ∧
     List.lookup "p" audit_state_a.plugin_root_paths = some "/proj/plugins/p" ∧
     within_dir (abspath audit_state_a.cwd "/etc/passwd")
       (abspath audit_state_a.cwd "/proj/plugins/p") = false ∧
     has_permission_prefixed audit_state_a.granted_permissions "p" "system." = false ∧
     audit_hook audit_state_a (some "p") (.openEv "/etc/passwd" "r") =
       .denied (jail_violation_msg "p" "/etc/passwd")
         { audit_state_a with
           permission_violations :=
             log_violation audit_state_a.permission_violations "p"
               (jail_violation_msg "p" "/etc/passwd") }) ∧
    enforce_directory_jail audit_state_a "p" "/proj/plugins/p/cfg.json" = none := by
  refine ⟨⟨rfl, fun h => absurd (congrArg List.length h) (by decide), by decide,
    by decide, by decide, ?_⟩, ?_⟩
  · exact directory_jail_outside_denied_inside_allowed.1 audit_state_a "p"
      "/etc/passwd" "r" "/proj/plugins/p" rfl
      (fun h => absurd (congrArg List.length h) (by decide))
      (by decide) (by decide) (by decide) (by decide)
  · exact directory_jail_outside_denied_inside_allowed.2 audit_state_a "p"
      "/proj/plugins/p/cfg.json" "/proj/plugins/p" (by decide) (Or.inl (by decide))

/-- Counterexample for C3 as stated: plugin p is in scope, has a
registered root, holds no capability at all (in particular none with the
privileged prefix), and opens a path outside both allowed directories,
yet the hook allows the operation, because mode x maps to no required
capability and the jail layer is skipped. -/
theorem jail_bypassed_for_unmapped_open_cex :
    List.lookup "p" audit_state_a.plugin_root_paths = some "/proj/plugins/p" ∧
    within_dir (abspath audit_state_a.cwd "/etc/passwd")
      (abspath audit_state_a.cwd "/proj/plugins/p") = false ∧
    within_dir (abspath audit_state_a.cwd "/etc/passwd")
      (abspath audit_state_a.cwd
        (joinPath (joinPath (joinPath audit_state_a.cwd "data") "temp") "p")) = false ∧
    has_permission_prefixed audit_state_a.granted_permissions "p" "system." = false ∧
    audit_hook audit_state_a (some "p") (.openEv "/etc/passwd" "x") =
      .allowed audit_state_a := by
  refine ⟨by decide, by decide, by decide, by decide, by decide⟩

/-! ### Claim C1 -/

/-- C1 (amended): for an ordinary plugin (no group.yml), when no
permission lock file exists before loading, load_plugin returns none, the
loaded-plugin dict and the stored metadata are unchanged, and the loader
creates no lock file. The meta-plugin group path violates the original
claim: it generates the group's lock file itself and loads the group with
no pre-existing lock (see the counterexample). -/
theorem load_without_lock_not_loaded :
    ∀ (env : LoadEnv) (s : LoaderState) (name : String),
      env.group_yml_exists name = false →
      env.lock_file_exists name = false →
      (load_plugin env s name).1 = none ∧
      (load_plugin env s name).2.plugins = s.plugins ∧
      (load_plugin env s name).2.plugin_metadata = s.plugin_metadata ∧
      (load_plugin env s name).2.created_lock_files = s.created_lock_files := by
  intro env s name hg hl
  unfold load_plugin
  simp only [hg, hl]
  repeat' split
  all_goals simp_all

/-- Witness for C1: with a concrete plain-plugin environment whose only
defect is the missing lock file, the plugin is not loaded and no lock file
is created. -/
theorem load_without_lock_not_loaded_witness :
    load_env_plain_nolock.group_yml_exists "q" = false ∧
    load_env_plain_nolock.lock_file_exists "q" = false ∧
    ((load_plugin load_env_plain_nolock loader_state_empty "q").1 = none ∧
     (load_plugin load_env_plain_nolock loader_state_empty "q").2.plugins =
       loader_state_empty.plugins ∧
     (load_plugin load_env_plain_nolock loader_state_empty "q").2.plugin_metadata =
       loader_state_empty.plugin_metadata ∧
     (load_plugin load_env_plain_nolock loader_state_empty "q").2.created_lock_files =
       loader_state_empty.created_lock_files) :=
  ⟨rfl, rfl,
    load_without_lock_not_loaded load_env_plain_nolock loader_state_empty "q" rfl rfl⟩

/-- Counterexample for C1 as stated: a meta-plugin group with no
pre-existing lock file is loaded anyway, and the loader itself creates the
group's lock file along the way. -/
theorem group_loaded_without_lock_cex :
    load_env_group_nolock.lock_file_exists "g" = false ∧
    (load_plugin load_env_group_nolock loader_state_empty "g").1 = some 1 ∧
    List.lookup "g" (load_plugin load_env_group_nolock loader_state_empty "g").2.plugins =
      some 1 ∧
    (load_plugin load_env_group_nolock loader_state_empty "g").2.created_lock_files =
      ["g"] := by
  refine ⟨rfl, by decide, by decide, by decide⟩

/-! ### Claim C10 -/

/-- A failing load_plugin_group call leaves the loaded-plugin dict and
the stored metadata unchanged. -/
theorem load_plugin_group_none_keeps :
    ∀ (env : LoadEnv) (s : LoaderState) (name : String) (s2 : LoaderState),
      load_plugin_group env s name = (none, s2) →
      s2.plugins = s.plugins ∧ s2.plugin_metadata = s.plugin_metadata := by
  intro env s name s2 h
  unfold load_plugin_group at h
  repeat' split at h
  all_goals injection h with ho hs
  all_goals
    first
      | exact Option.noConfusion ho
      | (subst hs; exact ⟨rfl, rfl⟩)

/-- A failing load_plugin call leaves the loaded-plugin dict and the
stored metadata unchanged: every early return precedes the store. -/
theorem load_plugin_none_keeps :
    ∀ (env : LoadEnv) (s : LoaderState) (name : String) (s2 : LoaderState),
      load_plugin env s name = (none, s2) →
      s2.plugins = s.plugins ∧ s2.plugin_metadata = s.plugin_metadata := by
  intro env s name s2 h
  unfold load_plugin at h
  repeat' split at h
  all_goals
    first
      | exact load_plugin_group_none_keeps _ _ _ _ h
      | (injection h with ho hs;
         first
           | exact Option.noConfusion ho
           | (subst hs; exact ⟨rfl, rfl⟩))

/-- C10: reload of a loaded plugin is not atomic. reload_plugin removes
the existing instance, metadata and root registration before attempting
the fresh load, so when that load fails it returns false with the plugin
absent from the loaded set and from the metadata map: the previous
working instance is not restored. -/
theorem reload_plugin_not_atomic :
    ∀ (env : LoadEnv) (s : LoaderState) (name : String) (inst : Nat),
      List.lookup name s.plugins = some inst →
      (load_plugin env (reload_remove s name) name).1 = none →
      (reload_plugin env s name).1 = false ∧
      List.lookup name (reload_plugin env s name).2.plugins = none ∧
      List.lookup name (reload_plugin env s name).2.plugin_metadata = none := by
  intro env s name inst hl hf
  have hrm : reload_remove s name =
      { s with plugins := s.plugins.filter (fun p => p.1 != name),
               plugin_metadata := s.plugin_metadata.filter (fun p => p.1 != name),
               plugin_root_paths := s.plugin_root_paths.filter (fun p => p.1 != name) } := by
    unfold reload_remove
    rw [hl]
    simp
  rcases hres : load_plugin env (reload_remove s name) name with ⟨o, s2⟩
  rw [hres] at hf
  simp only at hf
  subst hf
  have hk := load_plugin_none_keeps env (reload_remove s name) name s2 hres
  unfold reload_plugin
  dsimp only
  rw [hres]
  dsimp only
  rw [hrm] at hk
  dsimp only at hk
  refine ⟨rfl, ?_, ?_⟩
  · rw [hk.1]
    exact lookup_filter_ne s.plugins name
  · rw [hk.2]
    exact lookup_filter_ne s.plugin_metadata name

/-- Witness for C10: plugin p is loaded, its lock file has disappeared, so
the reload fails and p is gone from the loaded set and the metadata. -/
theorem reload_plugin_not_atomic_witness :
    List.lookup "p" loader_state_p.plugins = some 1 ∧
    (load_plugin load_env_plain_nolock (reload_remove loader_state_p "p") "p").1 = none ∧
    ((reload_plugin load_env_plain_nolock loader_state_p "p").1 = false ∧
     List.lookup "p" (reload_plugin load_env_plain_nolock loader_state_p "p").2.plugins = none ∧
     List.lookup "p"
       (reload_plugin load_env_plain_nolock loader_state_p "p").2.plugin_metadata = none) :=
  ⟨by decide, by decide,
    reload_plugin_not_atomic load_env_plain_nolock loader_state_p "p" 1
      (by decide) (by decide)⟩

/-! ### Claim C9 -/

/-- C9: a version constraint whose version string or specifier cannot be
parsed is treated as satisfied (true, after a warning), and consequently
the unmet-dependency gate of load_all_plugins never flags a loaded
dependency on account of an unparseable constraint, so such a constraint
never by itself causes the dependent plugin's load to fail. -/
theorem unparseable_constraint_permissive :
    (∀ (V S : Type) (pv : String → Option V) (ps : String → Option S)
        (ct : V → S → Bool) (version constraint : String),
      pv version = none ∨ ps constraint = none →
      version_satisfies V S pv ps ct version constraint = true) ∧
    (∀ (V S : Type) (pv : String → Option V) (ps : String → Option S)
        (ct : V → S → Bool) (loaded : List (String × String))
        (deps : List String) (constraints : List (String × String))
        (dep depVer c : String),
      List.lookup dep loaded = some depVer →
      List.lookup dep constraints = some c →
      (pv depVer = none ∨ ps c = none) →
      dep ∉ unmet_deps V S pv ps ct loaded deps constraints) := by
  have hsat : ∀ (V S : Type) (pv : String → Option V) (ps : String → Option S)
      (ct : V → S → Bool) (version constraint : String),
      pv version = none ∨ ps constraint = none →
      version_satisfies V S pv ps ct version constraint = true := by
    intro V S pv ps ct version constraint h
    unfold version_satisfies
    rcases h with h | h <;> split <;>
      (simp [h]; try (cases hpv : pv version <;> simp))
  refine ⟨hsat, ?_⟩
  intro V S pv ps ct loaded deps constraints dep depVer c h1 h2 h3 hmem
  have hcond := (List.mem_filter.mp hmem).2
  rw [h1, h2] at hcond
  simp only at hcond
  rw [hsat V S pv ps ct depVer c h3] at hcond
  simp at hcond

/-- Witness for C9: with parsers that reject everything, an arbitrary
constraint is satisfied and the dependency b, already loaded, is not
reported unmet. -/
theorem unparseable_constraint_permissive_witness :
    ((fun _ => (none : Option Unit)) "1.0" = none ∨
      (fun _ => (none : Option Unit)) ">=x" = none) ∧
    version_satisfies Unit Unit (fun _ => none) (fun _ => none)
      (fun _ _ => true) "1.0" ">=x" = true ∧
    List.lookup "b" [("b", "1.0")] = some "1.0" ∧
    List.lookup "b" [("b", ">=x")] = some ">=x" ∧
    "b" ∉ unmet_deps Unit Unit (fun _ => none) (fun _ => none)
      (fun _ _ => true) [("b", "1.0")] ["b"] [("b", ">=x")] :=
  ⟨Or.inl rfl,
   unparseable_constraint_permissive.1 Unit Unit (fun _ => none) (fun _ => none)
     (fun _ _ => true) "1.0" ">=x" (Or.inl rfl),
   by decide, by decide,
   unparseable_constraint_permissive.2 Unit Unit (fun _ => none) (fun _ => none)
     (fun _ _ => true) [("b", "1.0")] ["b"] [("b", ">=x")] "b" "1.0" ">=x"
     (by decide) (by decide) (Or.inl rfl)⟩

/-! ### Chain-runner helper lemmas -/

theorem add_trace_response_data (c : RequestContext) (m : String) :
    (add_trace c m).response_data = c.response_data := by
  unfold add_trace
  split <;> rfl

theorem add_trace_flag (c : RequestContext) (m : String) :
    (add_trace c m).is_short_circuited = c.is_short_circuited := by
  unfold add_trace
  split <;> rfl

theorem string_head_ne_append (a b c d : String) (x y : Char)
    (ha : a.data.head? = some x) (hc : c.data.head? = some y) (hxy : x ≠ y) :
    a ++ b ≠ c ++ d := by
  intro h
  have hd := congrArg String.data h
  rw [String.data_append, String.data_append] at hd
  have h2 := congrArg List.head? hd
  rw [List.head?_append, List.head?_append, ha, hc] at h2
  simp only [Option.or_some, Option.some.injEq] at h2
  exact hxy h2

/-! ### Claim C6 -/

/-- C6: whenever the short-circuit flag is already true at the entry of a
chain step, the runner halts immediately: the returned context is the
incoming one with only the halting trace entry appended, the result does
not depend on any plugin handler (no step with index at or above the
current one executes), and the appended entry is not a step-start marker
for any index. -/
theorem short_circuit_halts_chain :
    ∀ (ps : String → Handler) (chain : List String) (i : Nat)
      (ctx : RequestContext),
      ctx.is_short_circuited = true →
      execute_chain ps chain i ctx = add_trace ctx (short_circuit_trace_msg i) ∧
      (∀ ps2 : String → Handler,
        execute_chain ps2 chain i ctx = execute_chain ps chain i ctx) ∧
      (∀ (j : Nat) (name : String),
        short_circuit_trace_msg i ≠ start_trace_msg j name) := by
  intro ps chain i ctx h
  have hrun : ∀ ps3 : String → Handler,
      execute_chain ps3 chain i ctx = add_trace ctx (short_circuit_trace_msg i) := by
    intro ps3
    rw [execute_chain]
    simp [h]
  refine ⟨hrun ps, fun ps2 => by rw [hrun ps2, hrun ps], ?_⟩
  intro j name
  exact string_head_ne_append _ _ _ _ 'C' 'E' rfl rfl (by decide)

/-- Witness for C6: with the flag set, a concrete two-step chain halts at
index 0 with only the halting trace entry. -/
theorem short_circuit_halts_chain_witness :
    ctx_flagged.is_short_circuited = true ∧
    execute_chain (fun _ => fun _ c => (c, none)) ["auth", "provider"] 0 ctx_flagged =
      add_trace ctx_flagged (short_circuit_trace_msg 0) :=
  ⟨rfl,
    (short_circuit_halts_chain (fun _ => fun _ c => (c, none))
      ["auth", "provider"] 0 ctx_flagged rfl).1⟩

/-! ### Claim C7 -/

theorem dict_get_dict_set (rd : List (String × PyVal)) (k : String) (v : PyVal) :
    dict_get (dict_set rd k v) k = some v :=
  lookup_assoc_set rd k v

/-- Appending the first error entry to a response dict without an errors
key yields a singleton errors list. -/
theorem append_error_fresh (rd : List (String × PyVal)) (p m : String)
    (h : dict_contains rd "errors" = false) :
    dict_get (append_error rd p m) "errors" = some (.l [error_entry p m]) := by
  unfold append_error
  simp only [h, Bool.false_eq_true, if_false]
  have h1 : dict_get (dict_set rd "errors" (.l [])) "errors" = some (.l []) :=
    dict_get_dict_set rd "errors" (.l [])
  rw [h1]
  simpa using dict_get_dict_set (dict_set rd "errors" (.l [])) "errors"
    (.l ([] ++ [error_entry p m]))

/-- C7: when the first step's handler raises, the runner catches the
exception, appends the entry with the failing plugin's name and the
message to the response-level errors list, sets the short-circuit flag,
and the result does not depend on the handler of the later step (provider
never runs); the runner returns a context rather than propagating. -/
theorem step_exception_contained :
    ∀ (ps : String → Handler) (msg : String) (ctx : RequestContext),
      ctx.is_short_circuited = false →
      ps "auth" = raising_handler msg →
      dict_contains ctx.response_data "errors" = false →
      dict_get (execute_chain ps ["auth", "provider"] 0 ctx).response_data "errors" =
        some (.l [error_entry "auth" msg]) ∧
      (execute_chain ps ["auth", "provider"] 0 ctx).is_short_circuited = true ∧
      (∀ ps2 : String → Handler, ps2 "auth" = ps "auth" →
        execute_chain ps2 ["auth", "provider"] 0 ctx =
          execute_chain ps ["auth", "provider"] 0 ctx) := by
  intro ps msg ctx h1 h2 h3
  refine ⟨?_, ?_, ?_⟩
  · rw [execute_chain]
    simp only [h1, Bool.false_eq_true, if_false]
    simp [h2, raising_handler, add_trace_response_data]
    exact append_error_fresh ctx.response_data "auth" msg h3
  · rw [execute_chain]
    simp [h2, raising_handler, h1]
  · intro ps2 h4
    rw [execute_chain]
    rw [execute_chain]
    simp [h1, h2, h4, raising_handler]

/-- Witness for C7: a concrete run of the chain auth, provider in which
the auth handler raises boom. -/
theorem step_exception_contained_witness :
    ctx_fresh.is_short_circuited = false ∧
    (fun (_ : String) => raising_handler "boom") "auth" = raising_handler "boom" ∧
    dict_contains ctx_fresh.response_data "errors" = false ∧
    (dict_get (execute_chain (fun _ => raising_handler "boom")
        ["auth", "provider"] 0 ctx_fresh).response_data "errors" =
      some (.l [error_entry "auth" "boom"]) ∧
     (execute_chain (fun _ => raising_handler "boom")
        ["auth", "provider"] 0 ctx_fresh).is_short_circuited = true ∧
     (∀ ps2 : String → Handler,
        ps2 "auth" = (fun (_ : String) => raising_handler "boom") "auth" →
        execute_chain ps2 ["auth", "provider"] 0 ctx_fresh =
          execute_chain (fun _ => raising_handler "boom")
            ["auth", "provider"] 0 ctx_fresh)) :=
  ⟨rfl, rfl, rfl,
    step_exception_contained (fun _ => raising_handler "boom") "boom" ctx_fresh
      rfl rfl rfl⟩

/-! ### Claim C8 -/

/-- A cache hit returns the cached chain with the incoming state and a
single cache-hit trace entry. -/
theorem get_chain_cache_hit (st : ChainRunnerState) (route : String)
    (c : List String) (h : List.lookup route st.chain_cache = some c) :
    get_chain_for_route st route = (c, st, [cache_hit_trace_msg route c]) := by
  unfold get_chain_for_route
  rw [h]

/-- After any resolution call, the cache maps the route to the returned
chain. -/
theorem get_chain_cache_lookup (st : ChainRunnerState) (route : String) :
    List.lookup route (get_chain_for_route st route).2.1.chain_cache =
      some (get_chain_for_route st route).1 := by
  unfold get_chain_for_route
  cases hc : List.lookup route st.chain_cache with
  | some chain => simp [hc]
  | none =>
    simp only [hc]
    exact lookup_assoc_set _ _ _

/-- C8: resolving the same route twice with no invalidation in between
returns the identical plugin-reference list both times; the second call is
answered from the cache, leaves the state unchanged, and produces only
the single cache-hit trace entry, which is not an expansion entry. -/
theorem chain_resolution_idempotent :
    ∀ (st : ChainRunnerState) (route : String),
      (get_chain_for_route (get_chain_for_route st route).2.1 route).1 =
        (get_chain_for_route st route).1 ∧
      (get_chain_for_route (get_chain_for_route st route).2.1 route).2.2 =
        [cache_hit_trace_msg route (get_chain_for_route st route).1] ∧
      (get_chain_for_route (get_chain_for_route st route).2.1 route).2.1 =
        (get_chain_for_route st route).2.1 ∧
      (∀ (c : List String) (ref : String) (preset : List String),
        cache_hit_trace_msg route c ≠ expand_trace_msg ref preset) := by
  intro st route
  have hc := get_chain_cache_lookup st route
  rw [get_chain_cache_hit _ _ _ hc]
  exact ⟨rfl, rfl, rfl, fun c ref preset =>
    string_head_ne_append _ _ _ _ 'C' 'E' rfl rfl (by decide)⟩

/-! ### Resolver helper lemmas -/

theorem except_bind_ok {ε α β : Type} (x : α) (f : α → Except ε β) :
    ((Except.ok x : Except ε α) >>= f) = f x := rfl

theorem except_bind_error {ε α β : Type} (e : ε) (f : α → Except ε β) :
    ((Except.error e : Except ε α) >>= f) = .error e := rfl

theorem list_foldlM_except_nil {ε σ α : Type} (f : σ → α → Except ε σ) (b : σ) :
    ([] : List α).foldlM f b = .ok b := rfl

theorem list_foldlM_except_cons {ε σ α : Type} (f : σ → α → Except ε σ)
    (b : σ) (a : α) (l : List α) :
    (a :: l).foldlM f b = (f b a) >>= fun b2 => l.foldlM f b2 := rfl

theorem topoValid_nil (g : Graph) : topoValid g [] := by
  intro i n dps hi
  simp at hi

theorem topoValid_append (g : Graph) (order : List String) (n : String)
    (h : topoValid g order)
    (hdeps : ∀ dps, List.lookup n g = some dps →
      ∀ d ∈ dps, (List.lookup d g).isSome = true → d ∈ order) :
    topoValid g (order ++ [n]) := by
  intro i m dps hi hm d hd hds
  by_cases hlt : i < order.length
  · rw [List.getElem?_append_left hlt] at hi
    obtain ⟨j, hj, hjd⟩ := h i m dps hi hm d hd hds
    exact ⟨j, hj, by rw [List.getElem?_append_left (lt_trans hj hlt)]; exact hjd⟩
  · have hlen : i < order.length + 1 := by
      by_contra hge
      rw [List.getElem?_eq_none (by simp; omega)] at hi
      cases hi
    have hieq : i = order.length := by omega
    subst hieq
    rw [List.getElem?_concat_length] at hi
    injection hi with hi
    subst hi
    have hmem := hdeps dps hm d hd hds
    obtain ⟨j, hjd⟩ := List.mem_iff_getElem?.mp hmem
    have hjlt : j < order.length := by
      rcases List.getElem?_eq_some_iff.mp hjd with ⟨hb, _⟩
      exact hb
    exact ⟨j, hjlt, by rw [List.getElem?_append_left hjlt]; exact hjd⟩

theorem lookup_isSome_mem_keys {β : Type} (g : List (String × β)) (n : String)
    (h : (List.lookup n g).isSome = true) : n ∈ g.map Prod.fst := by
  rw [List.lookup_isSome_iff] at h
  obtain ⟨p, hp, hbeq⟩ := h
  rw [beq_iff_eq] at hbeq
  subst hbeq
  exact List.mem_map_of_mem Prod.fst hp

theorem indexOf_le_of_getElem? {α : Type} [DecidableEq α] :
    ∀ (l : List α) (j : Nat) (a : α), l[j]? = some a → l.indexOf a ≤ j := by
  intro l
  induction l with
  | nil => intro j a h; simp at h
  | cons b t ih =>
    intro j a h
    cases j with
    | zero =>
      simp only [List.getElem?_cons_zero, Option.some.injEq] at h
      subst h
      simp
    | succ j2 =>
      simp only [List.getElem?_cons_succ] at h
      by_cases hb : b = a
      · subst hb
        simp
      · rw [List.indexOf_cons_ne t hb]
        have := ih j2 a h
        omega

/-- Correctness of the resolver's visit: a successful call preserves the
invariant, restores the temporary marks, only grows the resolved set,
resolves the visited node, and resolves no node that was temporarily
marked at entry. -/
theorem visit_spec (g : Graph) : ∀ (fuel : Nat) (node : String)
    (st st2 : ResolveState),
    visit g fuel node st = .ok st2 → ResolverInv g st →
    VisitOut g st st2 ∧ node ∈ st2.resolved := by
  intro fuel
  induction fuel with
  | zero =>
    intro node st st2 h _
    exact absurd h (by simp [visit])
  | succ fuel ih =>
    have fold_spec : ∀ (deps : List String) (st st2 : ResolveState),
        deps.foldlM (fun acc dep =>
          if (List.lookup dep g).isNone then pure acc
          else visit g fuel dep acc) st = .ok st2 →
        ResolverInv g st →
        VisitOut g st st2 ∧
        (∀ d ∈ deps, (List.lookup d g).isSome = true → d ∈ st2.resolved) := by
      intro deps
      induction deps with
      | nil =>
        intro st st2 h hinv
        rw [list_foldlM_except_nil] at h
        injection h with h
        subst h
        exact ⟨⟨hinv, rfl, fun x hx => hx, fun x hx => Or.inl hx⟩, by simp⟩
      | cons d ds ihd =>
        intro st st2 h hinv
        rw [list_foldlM_except_cons] at h
        by_cases hd : (List.lookup d g).isNone
        · rw [if_pos hd] at h
          have h2 : ds.foldlM (fun acc dep =>
              if (List.lookup dep g).isNone then pure acc
              else visit g fuel dep acc) st = .ok st2 := h
          obtain ⟨hout, hmem⟩ := ihd st st2 h2 hinv
          refine ⟨hout, ?_⟩
          intro x hx hxs
          rcases List.mem_cons.mp hx with rfl | hx2
          · rw [Option.isNone_iff_eq_none] at hd
            rw [hd] at hxs
            cases hxs
          · exact hmem x hx2 hxs
        · rw [if_neg hd] at h
          cases hv : visit g fuel d st with
          | error e =>
            rw [hv, except_bind_error] at h
            exact Except.noConfusion h
          | ok stm =>
            rw [hv, except_bind_ok] at h
            obtain ⟨⟨hinvm, htempm, hmonom, hescm⟩, hdm⟩ := ih d st stm hv hinv
            obtain ⟨⟨hinv2, htemp2, hmono2, hesc2⟩, hmem2⟩ := ihd stm st2 h hinvm
            refine ⟨⟨hinv2, by rw [htemp2, htempm],
              fun x hx => hmono2 x (hmonom x hx), ?_⟩, ?_⟩
            · intro x hx
              rcases hesc2 x hx with hx2 | hx2
              · exact hescm x hx2
              · rw [htempm] at hx2
                exact Or.inr hx2
            · intro x hx hxs
              rcases List.mem_cons.mp hx with rfl | hx2
              · exact hmono2 x hdm
              · exact hmem2 x hx2 hxs
    intro node st st2 h hinv
    simp only [visit] at h
    by_cases ht : node ∈ st.temp
    · rw [if_pos ht] at h
      exact absurd h (by simp)
    · rw [if_neg ht] at h
      by_cases hr : node ∈ st.resolved
      · rw [if_pos hr] at h
        injection h with h
        subst h
        exact ⟨⟨hinv, rfl, fun x hx => hx, fun x hx => Or.inl hx⟩, hr⟩
      · rw [if_neg hr] at h
        cases hf : ((List.lookup node g).getD []).foldlM
            (fun acc dep =>
              if (List.lookup dep g).isNone then pure acc
              else visit g fuel dep acc)
            { st with temp := node :: st.temp } with
        | error e =>
          rw [hf] at h
          exact absurd h (by simp)
        | ok stm =>
          rw [hf] at h
          simp only at h
          injection h with h
          subst h
          obtain ⟨⟨hinv2, htemp2, hmono2, hesc2⟩, hdeps⟩ :=
            fold_spec _ _ _ hf hinv
          have hnode_not : node ∉ stm.resolved := by
            intro hx
            rcases hesc2 node hx with hx2 | hx2
            · exact hr hx2
            · exact hx2 (List.mem_cons_self node st.temp)
          have hnode_not_order : node ∉ stm.order :=
            fun hx => hnode_not ((hinv2.1 node).mpr hx)
          obtain ⟨hio, hnd, htv⟩ := hinv2
          refine ⟨⟨⟨?_, ?_, ?_⟩, ?_, ?_, ?_⟩, ?_⟩
          · intro x
            have hx := hio x
            simp only [List.mem_cons, List.mem_append, List.mem_singleton] at *
            tauto
          · rw [List.nodup_append]
            refine ⟨hnd, List.nodup_singleton node, fun a ha hb => ?_⟩
            rw [List.mem_singleton] at hb
            subst hb
            exact hnode_not_order ha
          · apply topoValid_append g stm.order node htv
            intro dps hdps d hd hds
            have hmemr := hdeps d (by rw [hdps]; exact hd) hds
            exact (hio d).mp hmemr
          · rw [htemp2]
            exact List.erase_cons_head node st.temp
          · intro x hx
            exact List.mem_cons_of_mem _ (hmono2 x hx)
          · intro x hx
            rcases List.mem_cons.mp hx with rfl | hx2
            · exact Or.inr ht
            · rcases hesc2 x hx2 with hx3 | hx3
              · exact Or.inl hx3
              · exact Or.inr (fun hmem => hx3 (List.mem_cons_of_mem _ hmem))
          · exact List.mem_cons_self _ _

/-- Correctness of the resolver's main loop over the graph keys. -/
theorem resolve_fold_spec (g : Graph) : ∀ (keys : List String)
    (st st2 : ResolveState),
    keys.foldlM (fun st3 plugin =>
      if plugin ∈ st3.resolved then pure st3
      else visit g (g.length + 1) plugin st3) st = .ok st2 →
    ResolverInv g st →
    ResolverInv g st2 ∧ (∀ x ∈ st.resolved, x ∈ st2.resolved) ∧
    (∀ k ∈ keys, k ∈ st2.resolved) := by
  intro keys
  induction keys with
  | nil =>
    intro st st2 h hinv
    rw [list_foldlM_except_nil] at h
    injection h with h
    subst h
    exact ⟨hinv, fun x hx => hx, by simp⟩
  | cons k ks ihk =>
    intro st st2 h hinv
    rw [list_foldlM_except_cons] at h
    by_cases hk : k ∈ st.resolved
    · rw [if_pos hk] at h
      obtain ⟨hinv2, hmono, hkeys⟩ := ihk st st2 h hinv
      refine ⟨hinv2, hmono, ?_⟩
      intro x hx
      rcases List.mem_cons.mp hx with rfl | hx2
      · exact hmono x hk
      · exact hkeys x hx2
    · rw [if_neg hk] at h
      cases hv : visit g (g.length + 1) k st with
      | error e =>
        rw [hv, except_bind_error] at h
        exact Except.noConfusion h
      | ok stm =>
        rw [hv, except_bind_ok] at h
        obtain ⟨⟨hinvm, _, hmonom, _⟩, hkm⟩ := visit_spec g (g.length + 1) k st stm hv hinv
        obtain ⟨hinv2, hmono2, hkeys2⟩ := ihk stm st2 h hinvm
        refine ⟨hinv2, fun x hx => hmono2 x (hmonom x hx), ?_⟩
        intro x hx
        rcases List.mem_cons.mp hx with rfl | hx2
        · exact hmono2 x hkm
        · exact hkeys2 x hx2

/-- A successful resolve_dependencies returns a complete, topologically
valid order. -/
theorem resolve_ok_topological (g : Graph) (order : List String)
    (h : resolve_dependencies g = .ok order) :
    (∀ n, (List.lookup n g).isSome = true → n ∈ order) ∧ topoValid g order := by
  unfold resolve_dependencies at h
  cases hf : (g.map Prod.fst).foldlM
      (fun st plugin =>
        if plugin ∈ st.resolved then pure st
        else visit g (g.length + 1) plugin st)
      ({ temp := [], resolved := [], order := [] } : ResolveState) with
  | error e =>
    rw [hf] at h
    exact Except.noConfusion h
  | ok stf =>
    rw [hf] at h
    simp only at h
    injection h with h
    subst h
    have hinit : ResolverInv g { temp := [], resolved := [], order := [] } :=
      ⟨fun x => by simp, List.nodup_nil, topoValid_nil g⟩
    obtain ⟨⟨hio, _, htv⟩, _, hkeys⟩ :=
      resolve_fold_spec g (g.map Prod.fst) _ stf hf hinit
    refine ⟨?_, htv⟩
    intro n hn
    exact (hio n).mp (hkeys n (lookup_isSome_mem_keys g n hn))

/-- An in-graph edge forces a strictly smaller position in a successful
resolution order. -/
theorem edge_indexOf_lt (g : Graph) (order : List String)
    (hcomp : ∀ n, (List.lookup n g).isSome = true → n ∈ order)
    (htv : topoValid g order) (a b : String)
    (hb : (List.lookup b g).isSome = true) (he : edge_to g a b) :
    order.indexOf b < order.indexOf a := by
  obtain ⟨dps, hdps, hbd⟩ := he
  have hain : a ∈ order := hcomp a (by rw [hdps]; rfl)
  have hga : order[order.indexOf a]? = some a := List.getElem?_indexOf hain
  obtain ⟨j, hji, hjb⟩ := htv (order.indexOf a) a dps hga hdps b hbd hb
  have := indexOf_le_of_getElem? order j b hjb
  omega

/-- Along a dependency chain, the position of the last node never exceeds
the position of the first. -/
theorem chain_indexOf_le (g : Graph) (order : List String)
    (hcomp : ∀ n, (List.lookup n g).isSome = true → n ∈ order)
    (htv : topoValid g order) :
    ∀ (l : List String), List.Chain' (edge_to g) l →
    (∀ y ∈ l, (List.lookup y g).isSome = true) →
    ∀ (x la : String), l.head? = some x → l.getLast? = some la →
    order.indexOf la ≤ order.indexOf x := by
  intro l
  induction l with
  | nil =>
    intro _ _ x la hx
    cases hx
  | cons a rest ihl =>
    intro hch hmems x la hx hla
    injection hx with hx
    subst hx
    cases rest with
    | nil =>
      simp only [List.getLast?_singleton, Option.some.injEq] at hla
      subst hla
      exact le_refl _
    | cons b rest2 =>
      rw [List.chain'_cons] at hch
      have h1 : order.indexOf b < order.indexOf a :=
        edge_indexOf_lt g order hcomp htv a b
          (hmems b (by simp)) hch.1
      have h2 := ihl hch.2 (fun y hy => hmems y (List.mem_cons_of_mem _ hy))
        b la rfl (by simpa using hla)
      omega

/-! ### Claim C5 -/

/-- C5: for every dependency graph, a successful resolve_dependencies
returns an order containing every graph node in which each node appears
strictly after all of its declared dependencies present in the graph
(a valid topological order, for every insertion order of the graph); on
every dependency cycle, self-cycles and longer chains included, it raises
an error; and when resolution raises, load_all_plugins aborts the whole
batch, loading nothing. -/
theorem resolve_dependencies_topological_and_cycle_abort :
    (∀ (g : Graph) (order : List String),
      resolve_dependencies g = .ok order →
      (∀ n, (List.lookup n g).isSome = true → n ∈ order) ∧ topoValid g order) ∧
    (∀ (g : Graph) (c : List String), IsDepCycle g c →
      ∃ e, resolve_dependencies g = .error e) ∧
    (∀ (V S : Type) (pv : String → Option V) (ps : String → Option S)
        (ct : V → S → Bool) (env : LoadEnv)
        (candidates : List (String × ManifestInfo)) (s : LoaderState)
        (e : String),
      resolve_dependencies (build_graph candidates) = .error e →
      load_all_plugins V S pv ps ct env candidates s = s) := by
  refine ⟨resolve_ok_topological, ?_, ?_⟩
  · intro g c hcyc
    cases hres : resolve_dependencies g with
    | error e => exact ⟨e, rfl⟩
    | ok order =>
      exfalso
      obtain ⟨hcomp, htv⟩ := resolve_ok_topological g order hres
      obtain ⟨hne, hmem, hchain, hwrap⟩ := hcyc
      cases c with
      | nil => exact hne rfl
      | cons x rest =>
        have hlast : ∃ la, (x :: rest).getLast? = some la := by
          cases hgl : (x :: rest).getLast? with
          | none =>
            rw [List.getLast?_eq_none_iff] at hgl
            cases hgl
          | some la => exact ⟨la, rfl⟩
        obtain ⟨la, hla⟩ := hlast
        have hd := chain_indexOf_le g order hcomp htv (x :: rest) hchain hmem
          x la rfl hla
        have hw := hwrap la x hla rfl
        have hlt := edge_indexOf_lt g order hcomp htv la x (hmem x (by simp)) hw
        omega
  · intro V S pv ps ct env candidates s e h
    unfold load_all_plugins
    dsimp only
    rw [h]

/-- Witness for C5: a two-node acyclic graph resolves to a topological
order; a three-node cycle and a two-node cycle both raise, the latter
making a concrete load_all_plugins batch load nothing. -/
theorem resolve_dependencies_topological_and_cycle_abort_witness :
    resolve_dependencies [("b", ([] : List String)), ("a", ["b"])] =
      .ok ["b", "a"] ∧
    ((∀ n, (List.lookup n [("b", ([] : List String)), ("a", ["b"])]).isSome = true →
        n ∈ ["b", "a"]) ∧
      topoValid [("b", ([] : List String)), ("a", ["b"])] ["b", "a"]) ∧
    IsDepCycle [("a", ["b"]), ("b", ["c"]), ("c", ["a"])] ["a", "b", "c"] ∧
    (∃ e, resolve_dependencies [("a", ["b"]), ("b", ["c"]), ("c", ["a"])] =
      .error e) ∧
    resolve_dependencies (build_graph
        [("a", ⟨"1.0", ["b"], []⟩), ("b", ⟨"1.0", ["a"], []⟩)]) =
      .error (cycle_msg "a") ∧
    load_all_plugins Unit Unit (fun _ => none) (fun _ => none) (fun _ _ => true)
        load_env_plain_nolock
        [("a", ⟨"1.0", ["b"], []⟩), ("b", ⟨"1.0", ["a"], []⟩)]
        loader_state_empty =
      loader_state_empty := by
  have hcyc : IsDepCycle [("a", ["b"]), ("b", ["c"]), ("c", ["a"])]
      ["a", "b", "c"] := by
    refine ⟨by decide, by decide, ?_, ?_⟩
    · rw [List.chain'_cons, List.chain'_cons]
      exact ⟨⟨["b"], rfl, by simp⟩, ⟨["c"], rfl, by simp⟩, List.chain'_singleton "c"⟩
    · intro la f hla hf
      simp only [List.getLast?, Option.some.injEq] at hla
      simp only [List.head?, Option.some.injEq] at hf
      subst hla
      subst hf
      exact ⟨["a"], rfl, by simp⟩
  refine ⟨rfl,
    resolve_dependencies_topological_and_cycle_abort.1
      [("b", ([] : List String)), ("a", ["b"])] ["b", "a"] rfl,
    hcyc,
    resolve_dependencies_topological_and_cycle_abort.2.1
      [("a", ["b"]), ("b", ["c"]), ("c", ["a"])] ["a", "b", "c"] hcyc,
    rfl,
    resolve_dependencies_topological_and_cycle_abort.2.2 Unit Unit
      (fun _ => none) (fun _ => none) (fun _ _ => true) load_env_plain_nolock
      [("a", ⟨"1.0", ["b"], []⟩), ("b", ⟨"1.0", ["a"], []⟩)]
      loader_state_empty (cycle_msg "a") rfl⟩
